import Mathlib

/-!
Verification of the token-provider (`zoom_mcp/auth/zoom_auth.py`) and the
natural-language schedule parser (`zoom_mcp/tools/date_parser.py`).

The Python code is shallowly embedded:
* strings are `List Char` after lower-casing/stripping (ASCII semantics);
* the three regular expressions of the parser are embedded as explicit
  leftmost-match scanners over character lists, reproducing the greedy /
  backtracking behaviour of `re.search` for those concrete patterns;
* `datetime` values are seconds since 0000-03-01 on the local wall clock plus
  a fixed UTC offset in minutes (time zones are modelled as fixed offsets;
  the claims under study fix the zone to UTC);
* the `float` arithmetic of `parse_duration` is modelled bit-exactly:
  decimal literals are correctly rounded to IEEE-754 binary64 values (dyadic
  numbers over `Nat`/`Int`), the product with 60 is rounded again, and
  `int()` truncates, rejecting an infinite value as Python does;
* `timedelta` construction and `datetime` additions and conversions carry
  the library's range limits, raising the corresponding `OverflowError`s;
* network I/O is modelled by passing the token endpoint's response as an
  explicit argument and returning the list of HTTP requests issued.
-/

deriving instance DecidableEq for Except

/-! ## Character/string utilities (Python `in`, `.lower()`, `.strip()`) -/

def isSpaceChar (c : Char) : Bool :=
  c == ' ' || c == '\t' || c == '\n' || c == '\r' || c == '\x0b' || c == '\x0c'

/-- Python `needle in hay` helper: `needle` occurs at the head of `l`. -/
def hasPrefixChars : List Char → List Char → Bool
  | [], _ => true
  | _ :: _, [] => false
  | a :: as, b :: bs => a == b && hasPrefixChars as bs

/-- Python substring test `needle in hay`. -/
def strContains : List Char → List Char → Bool
  | [], needle => needle.isEmpty
  | c :: rest, needle => hasPrefixChars needle (c :: rest) || strContains rest needle

/-- Python `text.lower().strip()` (ASCII). -/
def lowerStrip (s : String) : List Char :=
  (((s.toList.map Char.toLower).dropWhile isSpaceChar).reverse.dropWhile isSpaceChar).reverse

def isDigitChar (c : Char) : Bool := c.isDigit

def digitVal (c : Char) : Nat := c.toNat - 48

/-! ## Proleptic Gregorian calendar (mirrors Python `date`/`datetime` maths) -/

/-- Day count since 0000-03-01 of a civil date (valid for year ≥ 1). -/
def daysFromCivil (y m d : Nat) : Nat :=
  let y' := if m ≤ 2 then y - 1 else y
  let era := y' / 400
  let yoe := y' % 400
  let mp := if m > 2 then m - 3 else m + 9
  let doy := (153 * mp + 2) / 5 + (d - 1)
  let doe := yoe * 365 + yoe / 4 - yoe / 100 + doy
  era * 146097 + doe

/-- Inverse of `daysFromCivil`: day count back to `(year, month, day)`. -/
def civilFromDays (c : Nat) : Nat × Nat × Nat :=
  let era := c / 146097
  let doe := c % 146097
  let yoe := (doe - doe / 1460 + doe / 36524 - doe / 146096) / 365
  let y := yoe + era * 400
  let doy := doe - (365 * yoe + yoe / 4 - yoe / 100)
  let mp := (5 * doy + 2) / 153
  let d := doy - (153 * mp + 2) / 5 + 1
  let m := if mp < 10 then mp + 3 else mp - 9
  (if m ≤ 2 then y + 1 else y, m, d)

/-- An aware `datetime`: local wall-clock seconds since 0000-03-01 00:00:00
plus the zone's fixed UTC offset in minutes. -/
structure DateTimeTZ where
  localSec : Nat
  offsetMin : Int
deriving DecidableEq

/-- Python `datetime.weekday()` (Monday = 0). Day 0 of our era is a Wednesday,
hence the `+ 2`. -/
def weekdayNum (dt : DateTimeTZ) : Nat :=
  (dt.localSec / 86400 + 2) % 7

def pad2 (n : Nat) : String := if n < 10 then "0" ++ toString n else toString n

def pad4 (n : Nat) : String :=
  if n < 10 then "000" ++ toString n
  else if n < 100 then "00" ++ toString n
  else if n < 1000 then "0" ++ toString n
  else toString n

/-- First second of `datetime.min` (0001-01-01 00:00:00) in our era. -/
def minDatetimeSec : Nat := daysFromCivil 1 1 1 * 86400

/-- Last whole second of `datetime.max` (9999-12-31 23:59:59). -/
def maxDatetimeSec : Nat := daysFromCivil 9999 12 31 * 86400 + 86399

/-- Python `dt.astimezone(ZoneInfo('UTC'))`: subtract the fixed offset,
raising `OverflowError: date value out of range` when the UTC instant leaves
the `datetime` range. Returns the UTC instant in seconds. -/
def astimezoneUTC (dt : DateTimeTZ) : Except String Nat :=
  if (minDatetimeSec : Int) ≤ (dt.localSec : Int) - dt.offsetMin * 60 ∧
      (dt.localSec : Int) - dt.offsetMin * 60 ≤ (maxDatetimeSec : Int) then
    Except.ok ((dt.localSec : Int) - dt.offsetMin * 60).toNat
  else Except.error "date value out of range"

/-- Python `strftime('%Y-%m-%dT%H:%M:%SZ')` on a UTC instant in seconds. -/
def formatUTC (utc : Nat) : String :=
  let dayNum := utc / 86400
  let ymd := civilFromDays dayNum
  let secs := utc % 86400
  pad4 ymd.1 ++ "-" ++ pad2 ymd.2.1 ++ "-" ++ pad2 ymd.2.2 ++ "T" ++
    pad2 (secs / 3600) ++ ":" ++ pad2 (secs % 3600 / 60) ++ ":" ++ pad2 (secs % 60) ++ "Z"

/-! ## The regex `(\d{1,2})(?::(\d{2}))?\s*(am|pm)` under `re.search` -/

/-- Tail `\s*(am|pm)` of the time pattern; `true` means "pm". -/
def amPmAfterSpaces (cs : List Char) : Option Bool :=
  match cs.dropWhile isSpaceChar with
  | 'a' :: 'm' :: _ => some false
  | 'p' :: 'm' :: _ => some true
  | _ => none

/-- Part `(?::(\d{2}))?\s*(am|pm)` after the hour digits were read. -/
def timeAfterHour (h : Nat) (cs : List Char) : Option (Nat × Nat × Bool) :=
  (match cs with
   | ':' :: d1 :: d2 :: rest =>
     if isDigitChar d1 && isDigitChar d2 then
       (amPmAfterSpaces rest).map (fun p => (h, digitVal d1 * 10 + digitVal d2, p))
     else none
   | _ => none)
  <|> (amPmAfterSpaces cs).map (fun p => (h, 0, p))

/-- Match of the full time pattern anchored at the current position
(greedy `\d{1,2}`: two digits tried before one). -/
def timeAt : List Char → Option (Nat × Nat × Bool)
  | [] => none
  | c1 :: rest =>
    if isDigitChar c1 then
      (match rest with
       | c2 :: rest2 =>
         if isDigitChar c2 then timeAfterHour (digitVal c1 * 10 + digitVal c2) rest2
         else none
       | [] => none)
      <|> timeAfterHour (digitVal c1) rest
    else none

/-- Leftmost search, as `re.search` does. -/
def searchTimeList : List Char → Option (Nat × Nat × Bool)
  | [] => none
  | c :: rest => timeAt (c :: rest) <|> searchTimeList rest

/-! ## The regex `in (\d+)\s*(hour|minute|day)s?` under `re.search` -/

/-- Maximal digit run: `(count, value, rest)`. -/
def readDigits : List Char → Nat × Nat × List Char
  | [] => (0, 0, [])
  | c :: rest =>
    if isDigitChar c then
      let r := readDigits rest
      (r.1 + 1, digitVal c * 10 ^ r.1 + r.2.1, r.2.2)
    else (0, 0, c :: rest)

inductive TimeUnit where
  | hour
  | minute
  | day
deriving DecidableEq

/-- Tail `\s*(hour|minute|day)s?` (the alternation order of the pattern). -/
def unitAfterSpaces (cs : List Char) : Option TimeUnit :=
  let cs' := cs.dropWhile isSpaceChar
  if hasPrefixChars ("hour".toList) cs' then some TimeUnit.hour
  else if hasPrefixChars ("minute".toList) cs' then some TimeUnit.minute
  else if hasPrefixChars ("day".toList) cs' then some TimeUnit.day
  else none

/-- Match of the `in N unit` pattern anchored at the current position. -/
def inAt : List Char → Option (Nat × TimeUnit)
  | 'i' :: 'n' :: ' ' :: rest =>
    match readDigits rest with
    | (0, _, _) => none
    | (_ + 1, v, r) => (unitAfterSpaces r).map (fun u => (v, u))
  | _ => none

def searchInList : List Char → Option (Nat × TimeUnit)
  | [] => none
  | c :: rest => inAt (c :: rest) <|> searchInList rest

/-! ## The regex `(\d+(?:\.\d+)?)\s*(hour|hr|minute|min)s?` under `re.search` -/

inductive DurUnit where
  | hour
  | hr
  | minute
  | min
deriving DecidableEq

/-- Tail `\s*(hour|hr|minute|min)s?` (alternation order of the pattern). -/
def durUnitAfterSpaces (cs : List Char) : Option DurUnit :=
  let cs' := cs.dropWhile isSpaceChar
  if hasPrefixChars ("hour".toList) cs' then some DurUnit.hour
  else if hasPrefixChars ("hr".toList) cs' then some DurUnit.hr
  else if hasPrefixChars ("minute".toList) cs' then some DurUnit.minute
  else if hasPrefixChars ("min".toList) cs' then some DurUnit.min
  else none

/-- Match of the duration number+unit pattern anchored at the current position:
`(integer part, fraction value, fraction digit count, unit)`. -/
def durAt (cs : List Char) : Option (Nat × Nat × Nat × DurUnit) :=
  match readDigits cs with
  | (0, _, _) => none
  | (_ + 1, ip, rest) =>
    (match rest with
     | '.' :: rest2 =>
       match readDigits rest2 with
       | (0, _, _) => none
       | (k2 + 1, fv, rest3) => (durUnitAfterSpaces rest3).map (fun u => (ip, fv, k2 + 1, u))
     | _ => none)
    <|> (durUnitAfterSpaces rest).map (fun u => (ip, 0, 0, u))

def searchDurList : List Char → Option (Nat × Nat × Nat × DurUnit)
  | [] => none
  | c :: rest => durAt (c :: rest) <|> searchDurList rest

/-! ## `parse_natural_datetime` (date_parser.py lines 13-125) -/

/-- Adjustment of a matched `am`/`pm` hour to 24-hour time (lines 47-50). -/
def adjustTime (h : Nat) (isPm : Bool) : Nat :=
  if isPm && !(h == 12) then h + 12
  else if !isPm && h == 12 then 0
  else h

/-- Time-of-day resolution (lines 41-62): regex match, else keyword defaults,
else 10:00. Returns `(hour, minute)`. -/
def resolveTime (tl : List Char) : Nat × Nat :=
  match searchTimeList tl with
  | some (h, m, p) => (adjustTime h p, m)
  | none =>
    if strContains tl ("morning".toList) then (9, 0)
    else if strContains tl ("afternoon".toList) then (14, 0)
    else if strContains tl ("evening".toList) then (18, 0)
    else if strContains tl ("night".toList) then (20, 0)
    else (10, 0)

/-- Python `timedelta(minutes/hours/days = n)` as a number of seconds.
`timedelta` normalizes to days capped at 999999999 and raises `OverflowError`
past that (999999999 days, 23999999999 hours or 1439999999999 minutes are the
largest whole arguments whose total stays within `timedelta.max`). -/
def timedeltaSeconds (n : Nat) (u : TimeUnit) : Except String Nat :=
  match u with
  | TimeUnit.minute =>
    if n ≤ 1439999999999 then Except.ok (n * 60)
    else Except.error "days must have magnitude <= 999999999"
  | TimeUnit.hour =>
    if n ≤ 23999999999 then Except.ok (n * 3600)
    else Except.error "days must have magnitude <= 999999999"
  | TimeUnit.day =>
    if n ≤ 999999999 then Except.ok (n * 86400)
    else Except.error "days must have magnitude <= 999999999"

/-- Relative-day chain (lines 68-75), producing a day number; each selected
`reference + timedelta(days=c)` addition raises `OverflowError` past
`datetime.max`. Note that the `day after tomorrow` arm is unreachable: any
text containing the phrase also contains the substring `tomorrow`, so the
second arm fires first. -/
def resolveRelDate (tl : List Char) (ref : DateTimeTZ) : Except String (Option Nat) :=
  if strContains tl ("today".toList) then Except.ok (some (ref.localSec / 86400))
  else if strContains tl ("tomorrow".toList) then
    if ref.localSec + 86400 ≤ maxDatetimeSec then
      Except.ok (some ((ref.localSec + 86400) / 86400))
    else Except.error "date value out of range"
  else if strContains tl ("day after tomorrow".toList) then
    if ref.localSec + 2 * 86400 ≤ maxDatetimeSec then
      Except.ok (some ((ref.localSec + 2 * 86400) / 86400))
    else Except.error "date value out of range"
  else if strContains tl ("next week".toList) then
    if ref.localSec + 7 * 86400 ≤ maxDatetimeSec then
      Except.ok (some ((ref.localSec + 7 * 86400) / 86400))
    else Except.error "date value out of range"
  else Except.ok none

/-- The `days_of_week` dict (lines 78-81) in its iteration order. -/
def daysOfWeek : List (List Char × Nat) :=
  [("monday".toList, 0), ("tuesday".toList, 1), ("wednesday".toList, 2),
   ("thursday".toList, 3), ("friday".toList, 4), ("saturday".toList, 5),
   ("sunday".toList, 6)]

/-- First weekday name occurring in the text, in Monday..Sunday order
(the loop of lines 83-92 breaks at the first hit). -/
def findWeekday (tl : List Char) : Option Nat :=
  (List.find? (fun p => strContains tl p.1) daysOfWeek).map (fun p => p.2)

/-- Date resolution (lines 64-92): the relative chain runs first (its error
propagates), then the weekday loop overwrites its result; the weekday
addition `reference + timedelta(days=days_ahead)` is range-checked like any
other `datetime` addition. -/
def resolveDate (tl : List Char) (ref : DateTimeTZ) : Except String (Option Nat) :=
  match resolveRelDate tl ref with
  | Except.error e => Except.error e
  | Except.ok td0 =>
    match findWeekday tl with
    | some dn =>
      if (ref.localSec : Int) +
          (if (dn : Int) - (weekdayNum ref : Int) ≤ 0 ∨ strContains tl ("next".toList) = true
           then (dn : Int) - (weekdayNum ref : Int) + 7
           else (dn : Int) - (weekdayNum ref : Int)) * 86400 ≤ (maxDatetimeSec : Int) then
        Except.ok (some ((((ref.localSec : Int) +
          (if (dn : Int) - (weekdayNum ref : Int) ≤ 0 ∨ strContains tl ("next".toList) = true
           then (dn : Int) - (weekdayNum ref : Int) + 7
           else (dn : Int) - (weekdayNum ref : Int)) * 86400).toNat) / 86400))
      else Except.error "date value out of range"
    | none => Except.ok td0

/-- The final `datetime(y, m, d, hour, minute, 0, tzinfo)` construction plus
UTC conversion and formatting (lines 114-125). The `datetime` constructor's
hour/minute range validation carries the `ValueError` messages CPython uses
(year/month/day always come from a valid `date` here); the UTC conversion may
itself overflow. -/
def mkDatetimeFormat (td hour minute : Nat) (off : Int) : Except String String :=
  if hour ≤ 23 then
    if minute ≤ 59 then
      match astimezoneUTC ⟨td * 86400 + hour * 3600 + minute * 60, off⟩ with
      | Except.ok utc => Except.ok (formatUTC utc)
      | Except.error e => Except.error e
    else Except.error "minute must be in 0..59"
  else Except.error "hour must be in 0..23"

/-- `parse_natural_datetime(text, timezone, reference_time)`. The time zone is
modelled as a fixed UTC offset `off` in minutes and the reference instant is
explicit (assumed to be a valid `datetime`). `Except.error` carries the
message of the `ValueError` or `OverflowError` CPython raises. Mirroring the
source's statement order, date resolution runs — and may raise — before the
`in N unit` early return is considered; that early return adds the
range-checked `timedelta` to the reference (in the reference's own zone) and
converts to UTC. -/
def parse_natural_datetime (text : String) (off : Int) (ref : DateTimeTZ) :
    Except String String :=
  match resolveDate (lowerStrip text) ref with
  | Except.error e => Except.error e
  | Except.ok target_date =>
    match searchInList (lowerStrip text) with
    | some (n, u) =>
      match timedeltaSeconds n u with
      | Except.error e => Except.error e
      | Except.ok s =>
        if ref.localSec + s ≤ maxDatetimeSec then
          match astimezoneUTC ⟨ref.localSec + s, ref.offsetMin⟩ with
          | Except.ok utc => Except.ok (formatUTC utc)
          | Except.error e => Except.error e
        else Except.error "date value out of range"
    | none =>
      mkDatetimeFormat (target_date.getD (ref.localSec / 86400))
        (resolveTime (lowerStrip text)).1 (resolveTime (lowerStrip text)).2 off

/-! ## IEEE-754 binary64 semantics for the `float` arithmetic of
`parse_duration` -/

/-- A Python float (IEEE-754 binary64): `finite m e` is the non-negative
value `m * 2 ^ e`; `inf` is positive infinity. -/
inductive DblVal where
  | finite (m : Nat) (e : Int)
  | inf
deriving DecidableEq

/-- Round the non-negative rational `a / b` (`b > 0`) to the nearest integer,
ties to even. -/
def rneRatio (a b : Nat) : Nat :=
  if 2 * (a % b) < b then a / b
  else if b < 2 * (a % b) then a / b + 1
  else if a / b % 2 = 0 then a / b else a / b + 1

/-- Does `2 ^ e ≤ a / b` hold? -/
def pow2LeRatio (e : Int) (a b : Nat) : Bool :=
  if 0 ≤ e then decide (b * 2 ^ e.toNat ≤ a) else decide (b ≤ a * 2 ^ (-e).toNat)

/-- Fuel-driven binary logarithm (`fuel ≥ n` suffices), written with
structural recursion so that it reduces in the kernel. -/
def log2Fuel : Nat → Nat → Nat
  | 0, _ => 0
  | fuel + 1, n => if 2 ≤ n then log2Fuel fuel (n / 2) + 1 else 0

/-- Floor of the base-2 logarithm of a positive natural. -/
def natLog2 (n : Nat) : Nat := log2Fuel n n

/-- Floor of the base-2 logarithm of `a / b` (for `a, b > 0`). -/
def floorLog2Ratio (a b : Nat) : Int :=
  let e0 : Int := (natLog2 a : Int) - (natLog2 b : Int)
  if pow2LeRatio (e0 + 1) a b then e0 + 1
  else if pow2LeRatio e0 a b then e0
  else e0 - 1

/-- The ratio `(a / b) / 2 ^ e` as a numerator/denominator pair. -/
def scaleRatio (a b : Nat) (e : Int) : Nat × Nat :=
  if 0 ≤ e then (a, b * 2 ^ e.toNat) else (a * 2 ^ (-e).toNat, b)

/-- Round the non-negative rational `a / b` (`b > 0`) to a binary64 value:
round-to-nearest ties-to-even at 53 significand bits, subnormals at quantum
`2 ^ (-1074)` below `2 ^ (-1022)`, overflow to infinity at `2 ^ 1024`. -/
def roundDbl (a b : Nat) : DblVal :=
  if a = 0 then DblVal.finite 0 0
  else
    let e := floorLog2Ratio a b
    if e < -1022 then DblVal.finite (rneRatio (a * 2 ^ 1074) b) (-1074)
    else
      let p := scaleRatio a b (e - 52)
      let m := rneRatio p.1 p.2
      if pow2LeRatio (1024 - (e - 52)) m 1 then DblVal.inf
      else DblVal.finite m (e - 52)

/-- Python `float('<ip>.<fv>')`: correctly rounded decimal → binary64. -/
def pyFloatOfLit (ip fv k : Nat) : DblVal :=
  roundDbl (ip * 10 ^ k + fv) (10 ^ k)

/-- Binary64 product with the exactly representable constant 60. -/
def dblMul60 : DblVal → DblVal
  | DblVal.finite m e =>
    if 0 ≤ e then roundDbl (m * 60 * 2 ^ e.toNat) 1
    else roundDbl (m * 60) (2 ^ (-e).toNat)
  | DblVal.inf => DblVal.inf

/-- Python `int()` on a non-negative float: truncation toward zero; an
infinite value raises `OverflowError`. -/
def pyInt : DblVal → Except String Nat
  | DblVal.finite m e =>
    Except.ok (if 0 ≤ e then m * 2 ^ e.toNat else m / 2 ^ (-e).toNat)
  | DblVal.inf => Except.error "cannot convert float infinity to integer"

/-- `parse_duration(text)` (lines 128-153). `amount = float(<literal>)` and
`int(amount * 60)` / `int(amount)` follow IEEE-754 binary64 semantics; an
overflowing literal becomes infinity, which `int()` rejects. -/
def parse_duration (text : String) : Except String Nat :=
  match searchDurList (text.toList.map Char.toLower) with
  | some (ip, fv, k, u) =>
    if u = DurUnit.hour ∨ u = DurUnit.hr then pyInt (dblMul60 (pyFloatOfLit ip fv k))
    else pyInt (pyFloatOfLit ip fv k)
  | none => Except.ok 60

/-- Reference instant 2025-10-16T00:00:00 in UTC (a Thursday). -/
def refOct16 : DateTimeTZ := ⟨daysFromCivil 2025 10 16 * 86400, 0⟩

/-- Reference instant 2025-10-15T00:00:00 in UTC (a Wednesday). -/
def refWed : DateTimeTZ := ⟨daysFromCivil 2025 10 15 * 86400, 0⟩

/-! ## `ZoomAuth` (zoom_auth.py) -/

/-- UTF-8 encoding of one character, as a list of byte values. -/
def charUtf8 (c : Char) : List Nat :=
  let n := c.toNat
  if n < 128 then [n]
  else if n < 2048 then [192 + n / 64, 128 + n % 64]
  else if n < 65536 then [224 + n / 4096, 128 + n / 64 % 64, 128 + n % 64]
  else [240 + n / 262144, 128 + n / 4096 % 64, 128 + n / 64 % 64, 128 + n % 64]

/-- Python `s.encode()` (UTF-8 bytes). -/
def utf8Bytes (s : String) : List Nat := (s.toList.map charUtf8).flatten

def base64Alphabet : List Char :=
  "ABCDEFGHIJKLMNOPQRSTUVWXYZabcdefghijklmnopqrstuvwxyz0123456789+/".toList

def b64Char (n : Nat) : Char := base64Alphabet.getD n 'A'

/-- Standard base64 of a byte list, with `=` padding. -/
def b64Chunks : List Nat → List Char
  | [] => []
  | [a] => [b64Char (a / 4), b64Char (a % 4 * 16), '=', '=']
  | [a, b] => [b64Char (a / 4), b64Char (a % 4 * 16 + b / 16), b64Char (b % 16 * 4), '=']
  | a :: b :: c :: rest =>
    b64Char (a / 4) :: b64Char (a % 4 * 16 + b / 16) ::
      b64Char (b % 16 * 4 + c / 64) :: b64Char (c % 64) :: b64Chunks rest

/-- Python `base64.b64encode(...).decode()`. -/
def base64Encode (bs : List Nat) : String := String.mk (b64Chunks bs)

/-- State of a `ZoomAuth` instance. `token`/`token_expiry` model `_token` and
`_token_expiry`; the expiry is an absolute timestamp in seconds. -/
structure ZoomAuth where
  api_key : String
  api_secret : String
  account_id : Option String
  token : Option String
  token_expiry : Option Int
deriving DecidableEq

/-- `ZoomAuth.__init__` (lines 18-35): stores the fields unconditionally and
performs no validation. -/
def ZoomAuth.init (api_key api_secret : String) (account_id : Option String) : ZoomAuth :=
  { api_key := api_key, api_secret := api_secret, account_id := account_id,
    token := none, token_expiry := none }

/-- `_is_token_valid` (lines 48-57). `not self._token` is Python truthiness:
true when the cached token is `None` or the empty string; a `datetime` is
never falsy, so only `None` fails the expiry test. The buffer
`timedelta(minutes=5)` is 300 seconds. -/
def is_token_valid (a : ZoomAuth) (now : Int) : Bool :=
  if (a.token.getD "" == "") || a.token_expiry.isNone then false
  else decide (now < a.token_expiry.getD 0 - 300)

/-- The scope list of `_generate_token` (lines 74-79). -/
def scopes : List String :=
  ["account:read:settings:master",
   "account:read:account_setting:master",
   "cloud_recording:read:list_account_recordings:master",
   "cloud_recording:read:recording:master"]

/-- Lines 81-82: `" ".join(scopes)`. -/
def scopes_str : String := String.intercalate " " scopes

/-- The single HTTP request issued by `_generate_token` (lines 92-105). -/
structure TokenRequest where
  url : String
  authorization : String
  content_type : String
  data : List (String × String)
deriving DecidableEq

/-- The token endpoint's reply, with the JSON fields of a success body already
parsed out (`response.json()["access_token"]`, `["expires_in"]`). -/
structure TokenResponse where
  status_code : Nat
  text : String
  access_token : String
  expires_in : Int
deriving DecidableEq

/-- The POST request `_generate_token` builds (lines 68-105). -/
def buildTokenRequest (a : ZoomAuth) : TokenRequest :=
  { url := "https://zoom.us/oauth/token",
    authorization :=
      "Basic " ++ base64Encode (utf8Bytes (a.api_key ++ ":" ++ a.api_secret)),
    content_type := "application/x-www-form-urlencoded",
    data := [("grant_type", "client_credentials"), ("scope", scopes_str)] }

/-- The message of the exception raised on a non-200 status (line 112). -/
def authErrorMessage (status : Nat) (body : String) : String :=
  "Failed to get OAuth token: " ++ toString status ++ " - " ++ body

/-- `_generate_token` (lines 59-121): on a non-200 status raise (state
untouched); on 200 store the token and `now + expires_in` and return the
token. The pair is (raised-or-returned value, post-state). -/
def generate_token (a : ZoomAuth) (now : Int) (resp : TokenResponse) :
    Except String String × ZoomAuth :=
  if resp.status_code != 200 then
    (Except.error (authErrorMessage resp.status_code resp.text), a)
  else
    (Except.ok resp.access_token,
     { a with token := some resp.access_token,
              token_expiry := some (now + resp.expires_in) })

/-- `get_access_token` (lines 37-46). The third component lists the network
requests issued during the call (empty on a cache hit). -/
def get_access_token (a : ZoomAuth) (now : Int) (resp : TokenResponse) :
    Except String String × ZoomAuth × List TokenRequest :=
  if is_token_valid a now then (Except.ok (a.token.getD ""), a, [])
  else
    ((generate_token a now resp).1, (generate_token a now resp).2, [buildTokenRequest a])

/-- `ZoomAuth.from_env` (lines 123-147); the three arguments are the values of
the `ZOOM_API_KEY`, `ZOOM_API_SECRET` and `ZOOM_ACCOUNT_ID` environment
variables (`none` = unset). `not x` is Python truthiness again. -/
def from_env (key secret acct : Option String) : Except String ZoomAuth :=
  if (key.getD "" == "") || (secret.getD "" == "") then
    Except.error "ZOOM_API_KEY and ZOOM_API_SECRET environment variables must be set"
  else if acct.getD "" == "" then
    Except.error "ZOOM_ACCOUNT_ID environment variable must be set"
  else Except.ok (ZoomAuth.init (key.getD "") (secret.getD "") acct)

/-! ## Helper lemmas -/

lemma is_token_valid_iff (a : ZoomAuth) (now : Int) :
    is_token_valid a now = true ↔
      ∃ t e, a.token = some t ∧ t ≠ "" ∧ a.token_expiry = some e ∧ now < e - 300 := by
  unfold is_token_valid
  rcases ha : a.token with _ | t <;> rcases hb : a.token_expiry with _ | e <;>
    simp [ha, hb]

lemma is_token_valid_mono_false (a : ZoomAuth) (now now' : Int) (h : now ≤ now')
    (hv : is_token_valid a now = false) : is_token_valid a now' = false := by
  unfold is_token_valid at hv ⊢
  by_cases hc : ((a.token.getD "" == "") || a.token_expiry.isNone) = true
  · simp [hc]
  · simp [hc] at hv ⊢
    omega

lemma find?_first {α : Type} (p : α → Bool) (l : List α) (i : Nat) (a : α)
    (h1 : l.get? i = some a) (h2 : p a = true)
    (h3 : ∀ j, j < i → ∀ b, l.get? j = some b → p b = false) :
    List.find? p l = some a := by
  induction l generalizing i with
  | nil => simp at h1
  | cons x xs ih =>
    cases i with
    | zero =>
      simp at h1
      subst h1
      simp [List.find?, h2]
    | succ n =>
      have hx : p x = false := h3 0 (Nat.succ_pos n) x rfl
      simp [List.find?, hx]
      exact ih n (by simpa using h1) (fun j hj b hb => h3 (j + 1) (by omega) b (by simpa using hb))

lemma findWeekday_le6 (tl : List Char) (dn : Nat) (h : findWeekday tl = some dn) :
    dn ≤ 6 := by
  unfold findWeekday at h
  cases hf : List.find? (fun p => strContains tl p.1) daysOfWeek with
  | none => rw [hf] at h; simp at h
  | some q =>
    rw [hf] at h
    simp at h
    have hmem := List.mem_of_find?_eq_some hf
    fin_cases hmem <;> simp_all <;> omega

lemma hasPrefixChars_append (n1 n2 l : List Char)
    (h : hasPrefixChars (n1 ++ n2) l = true) : hasPrefixChars n1 l = true := by
  induction n1 generalizing l with
  | nil => rfl
  | cons a as ih =>
    cases l with
    | nil => simp [hasPrefixChars] at h
    | cons b bs =>
      simp [hasPrefixChars] at h ⊢
      exact ⟨h.1, ih bs h.2⟩

lemma strContains_append_left (hay n1 n2 : List Char)
    (h : strContains hay (n1 ++ n2) = true) : strContains hay n1 = true := by
  induction hay with
  | nil =>
    simp [strContains, List.isEmpty_iff, List.append_eq_nil] at h ⊢
    exact h.1
  | cons x rest ih =>
    simp [strContains] at h ⊢
    rcases h with h | h
    · exact Or.inl (hasPrefixChars_append _ _ _ h)
    · exact Or.inr (ih h)

lemma weekday_core (text : String) (off : Int) (ref : DateTimeTZ) (dn : Nat)
    (hfw : findWeekday (lowerStrip text) = some dn)
    (h4 : searchInList (lowerStrip text) = none)
    (hrange : ref.localSec + 13 * 86400 ≤ maxDatetimeSec) :
    ∃ d : Nat,
      (d : Int) = (dn : Int) - (weekdayNum ref : Int) +
        (if (dn : Int) - (weekdayNum ref : Int) ≤ 0 ∨
            strContains (lowerStrip text) ("next".toList) = true
         then 7 else 0) ∧
      parse_natural_datetime text off ref =
        mkDatetimeFormat (ref.localSec / 86400 + d)
          (resolveTime (lowerStrip text)).1 (resolveTime (lowerStrip text)).2 off := by
  have hdn : dn ≤ 6 := findWeekday_le6 _ _ hfw
  have hcd : weekdayNum ref ≤ 6 := by
    unfold weekdayNum
    omega
  obtain ⟨td0, hrel⟩ : ∃ td0, resolveRelDate (lowerStrip text) ref = Except.ok td0 := by
    unfold resolveRelDate
    split_ifs <;> first | exact ⟨_, rfl⟩ | omega
  by_cases hc : ((dn : Int) - (weekdayNum ref : Int) ≤ 0 ∨
      strContains (lowerStrip text) ("next".toList) = true)
  · have hg : (ref.localSec : Int) +
        ((dn : Int) - (weekdayNum ref : Int) + 7) * 86400 ≤ (maxDatetimeSec : Int) := by
      omega
    have hres : resolveDate (lowerStrip text) ref = Except.ok (some
        ((((ref.localSec : Int) +
          ((dn : Int) - (weekdayNum ref : Int) + 7) * 86400).toNat) / 86400)) := by
      simp only [resolveDate, hrel, hfw]
      rw [if_pos hc, if_pos hg]
    refine ⟨((dn : Int) - (weekdayNum ref : Int) + 7).toNat, ?_, ?_⟩
    · rw [if_pos hc]
      omega
    · simp only [parse_natural_datetime, hres, h4, Option.getD_some]
      congr 1
      omega
  · have hc' := hc
    push_neg at hc'
    have hg : (ref.localSec : Int) +
        ((dn : Int) - (weekdayNum ref : Int)) * 86400 ≤ (maxDatetimeSec : Int) := by
      omega
    have hres : resolveDate (lowerStrip text) ref = Except.ok (some
        ((((ref.localSec : Int) +
          ((dn : Int) - (weekdayNum ref : Int)) * 86400).toNat) / 86400)) := by
      simp only [resolveDate, hrel, hfw]
      rw [if_neg hc]
      rw [if_pos hg]
    refine ⟨((dn : Int) - (weekdayNum ref : Int)).toNat, ?_, ?_⟩
    · rw [if_neg hc]
      omega
    · simp only [parse_natural_datetime, hres, h4, Option.getD_some]
      congr 1
      omega

/-- C7: for every input text containing a weekday name (and no
`in N hour|minute|day` pattern), the date resolves to the first matching
weekday name in Monday..Sunday enumeration order, `days_ahead` being
`target_weekday - reference_weekday`, plus 7 whenever `days_ahead ≤ 0` or the
text contains "next" (as a substring). -/
theorem c7_weekday_resolution
    (text : String) (off : Int) (ref : DateTimeTZ)
    (i : Nat) (name : List Char) (dn : Nat)
    (h1 : daysOfWeek.get? i = some (name, dn))
    (h2 : strContains (lowerStrip text) name = true)
    (h3 : ∀ j, j < i → ∀ q, daysOfWeek.get? j = some q →
        strContains (lowerStrip text) q.1 = false)
    (h4 : searchInList (lowerStrip text) = none)
    (hrange : ref.localSec + 13 * 86400 ≤ maxDatetimeSec) :
    ∃ d : Nat,
      (d : Int) = (dn : Int) - (weekdayNum ref : Int) +
        (if (dn : Int) - (weekdayNum ref : Int) ≤ 0 ∨
            strContains (lowerStrip text) ("next".toList) = true
         then 7 else 0) ∧
      parse_natural_datetime text off ref =
        mkDatetimeFormat (ref.localSec / 86400 + d)
          (resolveTime (lowerStrip text)).1 (resolveTime (lowerStrip text)).2 off := by
  have hfind : List.find? (fun p => strContains (lowerStrip text) p.1) daysOfWeek
      = some (name, dn) :=
    find?_first _ _ i _ h1 h2 h3
  have hfw : findWeekday (lowerStrip text) = some dn := by
    unfold findWeekday
    rw [hfind]
    rfl
  exact weekday_core text off ref dn hfw h4 hrange

theorem c7_weekday_resolution_w :
    ∃ d : Nat, (d : Int) = 6 ∧
      parse_natural_datetime "Tuesday at 3pm" 0 refWed =
        mkDatetimeFormat (refWed.localSec / 86400 + d) 15 0 0 := by
  obtain ⟨d, hd, hp⟩ := c7_weekday_resolution "Tuesday at 3pm" 0 refWed 1
    ("tuesday".toList) 1 (by rfl) (by decide)
    (by
      intro j hj q hq
      interval_cases j
      simp only [daysOfWeek, List.get?] at hq
      cases hq
      decide)
    (by decide) (by decide)
  have hw : weekdayNum refWed = 2 := by decide
  have hrt : resolveTime (lowerStrip "Tuesday at 3pm") = (15, 0) := by decide
  rw [hw] at hd
  rw [hrt] at hp
  refine ⟨d, ?_, hp⟩
  rw [if_pos (Or.inl (by decide))] at hd
  omega

/-- C10: for every text containing both "next week" and a weekday name (and no
`in N` pattern), the weekday resolution overwrites the next-week date: the
result is that weekday with 7 added to `days_ahead`. -/
theorem c10_next_week_weekday (text : String) (off : Int) (ref : DateTimeTZ) (dn : Nat)
    (h1 : findWeekday (lowerStrip text) = some dn)
    (h2 : strContains (lowerStrip text) ("next week".toList) = true)
    (h4 : searchInList (lowerStrip text) = none)
    (hrange : ref.localSec + 13 * 86400 ≤ maxDatetimeSec) :
    ∃ d : Nat, (d : Int) = (dn : Int) - (weekdayNum ref : Int) + 7 ∧
      parse_natural_datetime text off ref =
        mkDatetimeFormat (ref.localSec / 86400 + d)
          (resolveTime (lowerStrip text)).1 (resolveTime (lowerStrip text)).2 off := by
  have hsplit : ("next week".toList) = ("next".toList) ++ (" week".toList) := by decide
  have hnext : strContains (lowerStrip text) ("next".toList) = true :=
    strContains_append_left _ _ _ (hsplit ▸ h2)
  obtain ⟨d, hd, hp⟩ := weekday_core text off ref dn h1 h4 hrange
  rw [if_pos (Or.inr hnext)] at hd
  exact ⟨d, hd, hp⟩

theorem c10_next_week_weekday_w :
    ∃ d : Nat, (d : Int) = 9 ∧
      parse_natural_datetime "next week friday" 0 refWed =
        mkDatetimeFormat (refWed.localSec / 86400 + d) 10 0 0 := by
  obtain ⟨d, hd, hp⟩ := c10_next_week_weekday "next week friday" 0 refWed 4
    (by decide) (by decide) (by decide) (by decide)
  have hw : weekdayNum refWed = 2 := by decide
  have hrt : resolveTime (lowerStrip "next week friday") = (10, 0) := by decide
  rw [hw] at hd
  rw [hrt] at hp
  exact ⟨d, by omega, hp⟩

/-- C6 (counterexample): `parse_natural_datetime` is not total — the input
"13pm" matches the time regex with hour 13, the pm adjustment yields 25, and
the `datetime` constructor raises `ValueError: hour must be in 0..23`. -/
theorem c6_total_counterexample :
    parse_natural_datetime "13pm" 0 refOct16 = Except.error "hour must be in 0..23" := by
  decide

lemma resolveRelDate_error (tl : List Char) (ref : DateTimeTZ) (e : String)
    (h : resolveRelDate tl ref = Except.error e) : e = "date value out of range" := by
  unfold resolveRelDate at h
  split_ifs at h
  all_goals
    first
      | exact Except.noConfusion h
      | (injection h with h1; exact h1.symm)

lemma resolveDate_error (tl : List Char) (ref : DateTimeTZ) (e : String)
    (h : resolveDate tl ref = Except.error e) : e = "date value out of range" := by
  unfold resolveDate at h
  cases hrel : resolveRelDate tl ref with
  | error e1 =>
    simp only [hrel] at h
    injection h with h1
    exact h1 ▸ resolveRelDate_error tl ref e1 hrel
  | ok td0 =>
    simp only [hrel] at h
    cases hfw : findWeekday tl with
    | none =>
      simp only [hfw] at h
      exact Except.noConfusion h
    | some dn =>
      simp only [hfw] at h
      split_ifs at h
      all_goals
        first
          | exact Except.noConfusion h
          | (injection h with h1; exact h1.symm)

lemma timedeltaSeconds_error (n : Nat) (u : TimeUnit) (e : String)
    (h : timedeltaSeconds n u = Except.error e) :
    e = "days must have magnitude <= 999999999" := by
  cases u <;>
    (simp only [timedeltaSeconds] at h
     split_ifs at h
     all_goals
       first
         | exact Except.noConfusion h
         | (injection h with h1; exact h1.symm))

lemma astimezoneUTC_error (dt : DateTimeTZ) (e : String)
    (h : astimezoneUTC dt = Except.error e) : e = "date value out of range" := by
  unfold astimezoneUTC at h
  split_ifs at h
  all_goals
    first
      | exact Except.noConfusion h
      | (injection h with h1; exact h1.symm)

lemma mkDatetimeFormat_error (td hour minute : Nat) (off : Int) (e : String)
    (h : mkDatetimeFormat td hour minute off = Except.error e) :
    e = "hour must be in 0..23" ∨ e = "minute must be in 0..59" ∨
      e = "date value out of range" := by
  unfold mkDatetimeFormat at h
  by_cases h1 : hour ≤ 23
  · rw [if_pos h1] at h
    by_cases h2 : minute ≤ 59
    · rw [if_pos h2] at h
      cases haz : astimezoneUTC ⟨td * 86400 + hour * 3600 + minute * 60, off⟩ with
      | ok utc =>
        simp only [haz] at h
        exact Except.noConfusion h
      | error e1 =>
        simp only [haz] at h
        injection h with hx
        exact Or.inr (Or.inr (hx ▸ astimezoneUTC_error _ _ haz))
    · rw [if_neg h2] at h
      injection h with hx
      exact Or.inr (Or.inl hx.symm)
  · rw [if_neg h1] at h
    injection h with hx
    exact Or.inl hx.symm

/-- C6 (amended): `parse_natural_datetime` degrades gracefully for
unrecognized input — an input containing none of the recognized patterns
yields the reference date at the 10:00 default — but it is not total: it
raises exactly when a matched am/pm time is out of range after adjustment,
when an `in N` amount exceeds the `timedelta` day-magnitude cap, or when a
computed datetime or its UTC conversion leaves the supported datetime
range. -/
theorem c6_total_amended (text : String) (off : Int) (ref : DateTimeTZ) :
    (∀ e, parse_natural_datetime text off ref = Except.error e →
        e = "hour must be in 0..23" ∨ e = "minute must be in 0..59" ∨
        e = "days must have magnitude <= 999999999" ∨
        e = "date value out of range") ∧
    parse_natural_datetime "sometime" 0 refOct16 = Except.ok "2025-10-16T10:00:00Z" := by
  constructor
  · intro e h
    cases hrd : resolveDate (lowerStrip text) ref with
    | error e1 =>
      simp only [parse_natural_datetime, hrd] at h
      injection h with h1
      exact Or.inr (Or.inr (Or.inr (h1 ▸ resolveDate_error _ _ _ hrd)))
    | ok td =>
      cases hsi : searchInList (lowerStrip text) with
      | some v =>
        obtain ⟨n, u⟩ := v
        simp only [parse_natural_datetime, hrd, hsi] at h
        cases hts : timedeltaSeconds n u with
        | error e2 =>
          simp only [hts] at h
          injection h with h1
          exact Or.inr (Or.inr (Or.inl (h1 ▸ timedeltaSeconds_error _ _ _ hts)))
        | ok s =>
          simp only [hts] at h
          by_cases hadd : ref.localSec + s ≤ maxDatetimeSec
          · rw [if_pos hadd] at h
            cases haz : astimezoneUTC ⟨ref.localSec + s, ref.offsetMin⟩ with
            | ok utc =>
              simp only [haz] at h
              exact Except.noConfusion h
            | error e3 =>
              simp only [haz] at h
              injection h with h1
              exact Or.inr (Or.inr (Or.inr (h1 ▸ astimezoneUTC_error _ _ haz)))
          · rw [if_neg hadd] at h
            injection h with h1
            exact Or.inr (Or.inr (Or.inr h1.symm))
      | none =>
        simp only [parse_natural_datetime, hrd, hsi] at h
        rcases mkDatetimeFormat_error _ _ _ _ _ h with h1 | h1 | h1
        · exact Or.inl h1
        · exact Or.inr (Or.inl h1)
        · exact Or.inr (Or.inr (Or.inr h1))
  · decide

theorem c6_total_amended_w :
    "days must have magnitude <= 999999999" = "hour must be in 0..23" ∨
    "days must have magnitude <= 999999999" = "minute must be in 0..59" ∨
    "days must have magnitude <= 999999999" = "days must have magnitude <= 999999999" ∨
    "days must have magnitude <= 999999999" = "date value out of range" :=
  (c6_total_amended "in 9999999999 days" 0 refOct16).1
    "days must have magnitude <= 999999999" (by decide)

/-- C8: evaluation at the failing input. The text "day after tomorrow"
resolves to the reference date plus one day (2025-10-17 for the 2025-10-16
reference), not plus two, because the `tomorrow` branch matches first
(`tomorrow` is a substring of `day after tomorrow`), leaving the dedicated
`day after tomorrow` branch unreachable. -/
theorem c8_day_after_tomorrow_bug :
    parse_natural_datetime "day after tomorrow" 0 refOct16 =
        Except.ok "2025-10-17T10:00:00Z" ∧
    strContains (lowerStrip "day after tomorrow") ("tomorrow".toList) = true ∧
    refOct16.localSec / 86400 + 1 = daysFromCivil 2025 10 17 := by
  decide

/-- C1 (counterexample): with no cached token and a 200 response carrying
`expires_in = 300`, `get_access_token` returns the fresh token although its
stored expiry is exactly 300 seconds away — the 5-minute buffer is not
enforced on the refresh path. -/
theorem c1_buffer_counterexample :
    (get_access_token (ZoomAuth.init "id" "secret" (some "acct")) 1000
        ⟨200, "{}", "tok", 300⟩).1 = Except.ok "tok" ∧
    (get_access_token (ZoomAuth.init "id" "secret" (some "acct")) 1000
        ⟨200, "{}", "tok", 300⟩).2.1.token_expiry = some 1300 ∧
    ¬ (300 < (1300 : Int) - 1000) := by
  decide

/-- C1 (amended): a cached token is only returned strictly more than 300
seconds before its stored expiry; a freshly refreshed token is returned
unconditionally with stored expiry `now + expires_in`, so it may be within
the buffer when `expires_in ≤ 300`. -/
theorem c1_buffer_amended (a : ZoomAuth) (now : Int) (resp : TokenResponse) :
    (is_token_valid a now = true →
      ∃ t e, a.token = some t ∧ a.token_expiry = some e ∧ 300 < e - now ∧
        (get_access_token a now resp).1 = Except.ok t) ∧
    (is_token_valid a now = false → resp.status_code = 200 →
      (get_access_token a now resp).1 = Except.ok resp.access_token ∧
      (get_access_token a now resp).2.1.token_expiry = some (now + resp.expires_in)) := by
  constructor
  · intro hv
    obtain ⟨t, e, ht, hne, he, hlt⟩ := (is_token_valid_iff a now).mp hv
    refine ⟨t, e, ht, he, by omega, ?_⟩
    simp [get_access_token, hv, ht]
  · intro hv h200
    simp [get_access_token, hv, generate_token, h200]

theorem c1_buffer_amended_w :
    (get_access_token (ZoomAuth.init "k" "s" (some "c")) 0 ⟨200, "", "t", 3600⟩).1 =
        Except.ok "t" ∧
    (get_access_token (ZoomAuth.init "k" "s" (some "c")) 0
        ⟨200, "", "t", 3600⟩).2.1.token_expiry = some 3600 := by
  have h := (c1_buffer_amended (ZoomAuth.init "k" "s" (some "c")) 0
    ⟨200, "", "t", 3600⟩).2 (by decide) (by decide)
  simpa using h

/-- C2: a call with a truthy cached token whose expiry is more than the
5-minute buffer away returns the identical cached token, leaves the state
unchanged and issues no network request; otherwise the call performs exactly
one refresh request and returns its outcome. -/
theorem c2_cached_or_refresh (a : ZoomAuth) (now : Int) (resp : TokenResponse) :
    (∀ t e, a.token = some t → t ≠ "" → a.token_expiry = some e → now < e - 300 →
        get_access_token a now resp = (Except.ok t, a, [])) ∧
    ((¬ ∃ t e, a.token = some t ∧ t ≠ "" ∧ a.token_expiry = some e ∧ now < e - 300) →
        get_access_token a now resp =
          ((generate_token a now resp).1, (generate_token a now resp).2,
           [buildTokenRequest a])) := by
  constructor
  · intro t e ht hne he hlt
    have hv : is_token_valid a now = true :=
      (is_token_valid_iff a now).mpr ⟨t, e, ht, hne, he, hlt⟩
    simp [get_access_token, hv, ht]
  · intro hno
    have hv : is_token_valid a now = false := by
      cases hvb : is_token_valid a now with
      | false => rfl
      | true => exact absurd ((is_token_valid_iff a now).mp hvb) hno
    simp [get_access_token, hv]

theorem c2_cached_or_refresh_w :
    get_access_token ⟨"k", "s", some "c", some "tok", some 1000⟩ 0 ⟨500, "err", "", 0⟩ =
      (Except.ok "tok", ⟨"k", "s", some "c", some "tok", some 1000⟩, []) :=
  (c2_cached_or_refresh ⟨"k", "s", some "c", some "tok", some 1000⟩ 0
    ⟨500, "err", "", 0⟩).1 "tok" 1000 rfl (by decide) rfl (by decide)

/-- C3: when a refresh is attempted and the endpoint answers with a non-2xx
status, the call returns the error carrying the status code and response
body, the cached token and expiry are unchanged, and any later call performs
a fresh refresh request. -/
theorem c3_failure_no_poison (a : ZoomAuth) (now : Int) (resp : TokenResponse)
    (hv : is_token_valid a now = false)
    (hs : resp.status_code < 200 ∨ 300 ≤ resp.status_code) :
    (get_access_token a now resp).1 =
        Except.error (authErrorMessage resp.status_code resp.text) ∧
    (get_access_token a now resp).2.1 = a ∧
    (∀ now' resp', now ≤ now' →
        get_access_token (get_access_token a now resp).2.1 now' resp' =
          ((generate_token a now' resp').1, (generate_token a now' resp').2,
           [buildTokenRequest a])) := by
  have hne : resp.status_code ≠ 200 := by omega
  have h1 : get_access_token a now resp =
      (Except.error (authErrorMessage resp.status_code resp.text), a,
       [buildTokenRequest a]) := by
    simp [get_access_token, hv, generate_token, hne]
  refine ⟨by rw [h1], by rw [h1], ?_⟩
  intro now' resp' hle
  rw [h1]
  have hv' : is_token_valid a now' = false := is_token_valid_mono_false a now now' hle hv
  simp [get_access_token, hv']

theorem c3_failure_no_poison_w :
    (get_access_token (ZoomAuth.init "k" "s" (some "c")) 0 ⟨401, "denied", "", 0⟩).1 =
        Except.error (authErrorMessage 401 "denied") ∧
    (get_access_token (ZoomAuth.init "k" "s" (some "c")) 0 ⟨401, "denied", "", 0⟩).2.1 =
        ZoomAuth.init "k" "s" (some "c") ∧
    get_access_token
        ((get_access_token (ZoomAuth.init "k" "s" (some "c")) 0
          ⟨401, "denied", "", 0⟩).2.1) 5 ⟨500, "oops", "", 0⟩ =
      ((generate_token (ZoomAuth.init "k" "s" (some "c")) 5 ⟨500, "oops", "", 0⟩).1,
       (generate_token (ZoomAuth.init "k" "s" (some "c")) 5 ⟨500, "oops", "", 0⟩).2,
       [buildTokenRequest (ZoomAuth.init "k" "s" (some "c"))]) := by
  have h := c3_failure_no_poison (ZoomAuth.init "k" "s" (some "c")) 0
    ⟨401, "denied", "", 0⟩ (by decide) (by decide)
  exact ⟨h.1, h.2.1, h.2.2 5 ⟨500, "oops", "", 0⟩ (by decide)⟩

/-- C4 (counterexample): the refresh request actually sends
`grant_type=client_credentials` — not `account_credentials` — and carries no
`account_id` parameter at all. -/
theorem c4_request_counterexample :
    (buildTokenRequest (ZoomAuth.init "id" "secret" (some "acct"))).data.lookup
        "grant_type" = some "client_credentials" ∧
    (buildTokenRequest (ZoomAuth.init "id" "secret" (some "acct"))).data.lookup
        "grant_type" ≠ some "account_credentials" ∧
    (buildTokenRequest (ZoomAuth.init "id" "secret" (some "acct"))).data.lookup
        "account_id" = none := by
  decide

/-- C4 (amended): every refresh issues a single POST to the token URL with
HTTP Basic authentication (base64 of `client_id:client_secret`) sending
`grant_type=client_credentials` plus a space-joined scope list (the account
identifier is not sent); on a 200 response it parses `access_token` and
`expires_in` and stores `expiry = now + expires_in`, returning the token. -/
theorem c4_request_amended (a : ZoomAuth) (now : Int) (resp : TokenResponse)
    (h200 : resp.status_code = 200) :
    (is_token_valid a now = false →
        (get_access_token a now resp).2.2 = [buildTokenRequest a]) ∧
    buildTokenRequest a =
      { url := "https://zoom.us/oauth/token",
        authorization :=
          "Basic " ++ base64Encode (utf8Bytes (a.api_key ++ ":" ++ a.api_secret)),
        content_type := "application/x-www-form-urlencoded",
        data := [("grant_type", "client_credentials"), ("scope", scopes_str)] } ∧
    (generate_token a now resp).1 = Except.ok resp.access_token ∧
    (generate_token a now resp).2.token = some resp.access_token ∧
    (generate_token a now resp).2.token_expiry = some (now + resp.expires_in) := by
  refine ⟨?_, rfl, ?_, ?_, ?_⟩
  · intro hv
    simp [get_access_token, hv]
  all_goals simp [generate_token, h200]

theorem c4_request_amended_w :
    (get_access_token (ZoomAuth.init "id" "sec" (some "acct")) 7 ⟨200, "", "T", 100⟩).2.2 =
        [buildTokenRequest (ZoomAuth.init "id" "sec" (some "acct"))] ∧
    (generate_token (ZoomAuth.init "id" "sec" (some "acct")) 7 ⟨200, "", "T", 100⟩).1 =
        Except.ok "T" ∧
    (generate_token (ZoomAuth.init "id" "sec" (some "acct")) 7
        ⟨200, "", "T", 100⟩).2.token_expiry = some (7 + 100) := by
  have h := c4_request_amended (ZoomAuth.init "id" "sec" (some "acct")) 7
    ⟨200, "", "T", 100⟩ rfl
  exact ⟨h.1 (by decide), h.2.2.1, h.2.2.2.2⟩

/-- C5 (counterexample): direct construction with all three credential fields
empty or missing performs no validation and succeeds, yielding the
unvalidated instance — no error of any kind is raised. -/
theorem c5_construction_counterexample :
    ZoomAuth.init "" "" none =
      { api_key := "", api_secret := "", account_id := none,
        token := none, token_expiry := none } := rfl

/-- C5 (amended): the direct constructor stores its arguments unconditionally
(no validation); only `from_env` validates, failing when the key, secret or
account id environment variable is unset or empty and succeeding — with the
stored credentials — when all three are non-empty. -/
theorem c5_construction_amended (key secret : String) (acct : Option String)
    (k s ac : Option String) :
    ZoomAuth.init key secret acct =
      { api_key := key, api_secret := secret, account_id := acct,
        token := none, token_expiry := none } ∧
    ((∃ z, from_env k s ac = Except.ok z) ↔
      (k.getD "" ≠ "" ∧ s.getD "" ≠ "" ∧ ac.getD "" ≠ "")) ∧
    (∀ z, from_env k s ac = Except.ok z →
        z = ZoomAuth.init (k.getD "") (s.getD "") ac) := by
  refine ⟨rfl, ?_, ?_⟩
  · unfold from_env
    split_ifs with h1 h2
    · simp only [Bool.or_eq_true, beq_iff_eq] at h1
      constructor
      · rintro ⟨z, hz⟩
        exact hz.elim
      · rintro ⟨hk, hs, hac⟩
        tauto
    · simp only [beq_iff_eq] at h2
      constructor
      · rintro ⟨z, hz⟩
        exact hz.elim
      · rintro ⟨hk, hs, hac⟩
        exact absurd h2 hac
    · simp only [Bool.or_eq_true, beq_iff_eq, not_or] at h1
      simp only [beq_iff_eq] at h2
      constructor
      · intro _
        exact ⟨h1.1, h1.2, h2⟩
      · intro _
        exact ⟨ZoomAuth.init (k.getD "") (s.getD "") ac, rfl⟩
  · intro z hz
    unfold from_env at hz
    split_ifs at hz
    all_goals
      first
        | exact Except.noConfusion hz
        | (injection hz with h; exact h.symm)

theorem c5_construction_amended_w :
    ∃ z, from_env (some "a") (some "b") (some "c") = Except.ok z :=
  ((c5_construction_amended "a" "b" (some "c") (some "a") (some "b")
      (some "c")).2.1).mpr (by decide)

set_option maxRecDepth 100000 in
/-- C9 (counterexample): Python computes the hours conversion in binary
floating point, so `parse_duration("8.2 hours")` returns 491, although
multiplying the literal 8.2 by 60 exactly and truncating to an integer gives
492 (`int(8.2 * 60)` is `int(491.99999999999994)` = 491). -/
theorem c9_duration_counterexample :
    parse_duration "8.2 hours" = Except.ok 491 ∧
    (8 * 10 ^ 1 + 2) * 60 / 10 ^ 1 = 492 := by
  decide

set_option maxRecDepth 100000 in
/-- C9 (amended): `parse_duration` returns 60 when no number+unit pattern
matches; otherwise the matched literal is converted to an IEEE-754 binary64
float, hours are multiplied by 60 in float arithmetic, and the result is
truncated by `int()` — which raises when an overflowing literal became
infinity. The documented examples are unaffected by float rounding (90, 90,
60); in general the result can sit one below the exact conversion, e.g.
"4.1 hours" yields 245 where exact arithmetic gives 246. -/
theorem c9_duration_amended (text : String) :
    (searchDurList (text.toList.map Char.toLower) = none →
        parse_duration text = Except.ok 60) ∧
    (∀ ip fv k u, searchDurList (text.toList.map Char.toLower) = some (ip, fv, k, u) →
        parse_duration text =
          if u = DurUnit.hour ∨ u = DurUnit.hr
          then pyInt (dblMul60 (pyFloatOfLit ip fv k))
          else pyInt (pyFloatOfLit ip fv k)) ∧
    parse_duration "90 minutes" = Except.ok 90 ∧
    parse_duration "1.5 hours" = Except.ok 90 ∧
    parse_duration "just chat" = Except.ok 60 ∧
    parse_duration "4.1 hours" = Except.ok 245 := by
  refine ⟨?_, ?_, by decide, by decide, by decide, by decide⟩
  · intro h
    have h' : searchDurList (List.map Char.toLower text.data) = none := h
    simp [parse_duration, h']
  · intro ip fv k u h
    unfold parse_duration
    rw [h]

theorem c9_duration_amended_w :
    parse_duration "1.5 hours" = pyInt (dblMul60 (pyFloatOfLit 1 5 1)) := by
  have h := (c9_duration_amended "1.5 hours").2.1 1 5 1 DurUnit.hour (by decide)
  rw [if_pos (Or.inl rfl)] at h
  exact h
